import Mathlib

/-!
Shallow embedding of `src/scripts/1-fetch/doaj_fetch.py` — the DOAJ
paginated-fetch aggregation pipeline.  The embedding covers the core:
`extract_license_type`, the `process_journals` page loop (pagination,
budget, rate-limit sleeps, per-record classification and counter
updates), and the provenance record built by `query_doaj`.

Modelling conventions:
- Python dict `get` with a default is modelled by `Option` plus `getD`.
- Python truthiness on the values this script tests (`None`, lists,
  strings, ints) is modelled explicitly (`pyFalsySeq`, `pyTruthy`).
- A `collections.Counter` maps a key to the number of times it was
  incremented; we record each increment as an event in a list, and a
  counter cell / table sum is recovered by counting events.  This is an
  exact representation of the counts the Python counters hold.
- The remote paginated source is a list of page outcomes for pages
  1, 2, …; past the end of the list the API returns an empty result
  page (source exhausted).  `time.sleep(RATE_LIMIT_DELAY)` is modelled
  by incrementing a sleep counter; the page requests issued are traced
  in `pagesRequested`.
-/

/-- The `CC_LICENSE_TYPES` constant from the source. -/
def CC_LICENSE_TYPES : List String :=
  ["CC BY", "CC BY-NC", "CC BY-SA", "CC BY-ND", "CC BY-NC-SA",
   "CC BY-NC-ND", "CC0", "UNKNOWN CC legal tool"]

/-- One entry of the `license` sequence of a DOAJ `bibjson` object: a dict
whose `"type"` field may be absent (`lic.get("type", "")` defaults it). -/
structure LicenseDescriptor where
  type? : Option String
  deriving DecidableEq, Repr

/-- Models `lic.get("type", "")`. -/
def LicenseDescriptor.licType (d : LicenseDescriptor) : String :=
  d.type?.getD ""

/-- A JSON scalar as it reaches the `oa_start` field: either an integer or
a string (drawn from `response.json()`). -/
inductive JValue where
  | jint (n : Int)
  | jstr (s : String)
  deriving DecidableEq, Repr

/-- Python truthiness of a `JValue` (`if oa_start:`). -/
def pyTruthy : JValue → Bool
  | .jint n => n ≠ 0
  | .jstr s => s ≠ ""

/-- Python `str()` of a `JValue` (`str(oa_start)`). -/
def pyStr : JValue → String
  | .jint n => toString n
  | .jstr s => s

/-- Python truthiness of an optional sequence: `not x` is true for `None`
and for an empty list (`if not license_info:` / `if not results:`). -/
def pyFalsySeq {α : Type} : Option (List α) → Bool
  | none => true
  | some l => l.isEmpty

/-- One entry of the `subject` list: either not a dict (skipped by the
`isinstance(subject, dict)` test) or a dict whose `"code"` and `"term"`
fields may each be absent (`subject.get("code", "")` defaults them). -/
inductive SubjectEntry where
  | nonDict
  | dict (code? : Option String) (term? : Option String)
  deriving DecidableEq, Repr

/-- The fields of a `bibjson` object that `process_journals` reads:
`bibjson.get("license")` (absent → `none`), `bibjson.get("subject", [])`,
`bibjson.get("oa_start")` (absent → `none`), `bibjson.get("language", [])`. -/
structure Bibjson where
  license : Option (List LicenseDescriptor)
  subject : List SubjectEntry
  oa_start : Option JValue
  language : List String
  deriving DecidableEq, Repr

/-- The empty dict default of `journal.get("bibjson", {})`: every `get` on
it yields its default. -/
def emptyBibjson : Bibjson :=
  { license := none, subject := [], oa_start := none, language := [] }

/-- One raw journal record; its `bibjson` field may be absent. -/
structure Journal where
  bibjson : Option Bibjson
  deriving DecidableEq, Repr

/-- Models `journal.get("bibjson", {})`. -/
def Journal.bib (j : Journal) : Bibjson :=
  j.bibjson.getD emptyBibjson

/-- Outcome of one page request: a successful JSON response carrying its
`results` list (`data.get("results", [])`), or a
`requests.exceptions.RequestException`. -/
inductive FetchResult where
  | success (results : List Journal)
  | failure
  deriving DecidableEq, Repr

/-- A successfully fetched page that is non-empty, i.e. a page whose
processing completes and falls through to `page += 1; time.sleep(...)`. -/
def pageOk : FetchResult → Bool
  | .success results => !results.isEmpty
  | .failure => false

/-- The four counter tables of `process_journals`, as increment-event
lists: `license_counts` receives one event per qualifying record (its
category); the three `defaultdict(Counter)` tables receive
(category, secondary-key) events.  A Python counter cell equals the number
of matching events; a per-category table sum equals the number of events
carrying that category. -/
structure Tables where
  license : List String
  subject : List (String × String)
  year : List (String × String)
  language : List (String × String)
  deriving DecidableEq, Repr

/-- All counters empty. -/
def Tables.empty : Tables :=
  { license := [], subject := [], year := [], language := [] }

/-- Value of the cell `license_counts[cat]`. -/
def countLicense (t : Tables) (cat : String) : Nat :=
  t.license.count cat

/-- Sum of `subject_counts[cat]` over all of its secondary keys. -/
def sumSubject (t : Tables) (cat : String) : Nat :=
  (t.subject.filter (fun e => e.1 == cat)).length

/-- Sum of `year_counts[cat]` over all of its secondary keys. -/
def sumYear (t : Tables) (cat : String) : Nat :=
  (t.year.filter (fun e => e.1 == cat)).length

/-- Sum of `language_counts[cat]` over all of its secondary keys. -/
def sumLanguage (t : Tables) (cat : String) : Nat :=
  (t.language.filter (fun e => e.1 == cat)).length

/-- Value of the cell `year_counts[cat][key]`. -/
def countYear (t : Tables) (cat key : String) : Nat :=
  t.year.count (cat, key)

/-- `extract_license_type`'s scan: return the first `lic.get("type", "")`
that is in `CC_LICENSE_TYPES`; after the loop return the catch-all. -/
def findLicense : List LicenseDescriptor → String
  | [] => "UNKNOWN CC legal tool"
  | d :: rest =>
      if d.licType ∈ CC_LICENSE_TYPES then d.licType else findLicense rest

/-- `extract_license_type(license_info)` from the source: `None` or an
empty sequence returns the catch-all immediately; otherwise the descriptors
are scanned in order. -/
def extract_license_type (license_info : Option (List LicenseDescriptor)) :
    String :=
  match license_info with
  | none => "UNKNOWN CC legal tool"
  | some l => if l.isEmpty then "UNKNOWN CC legal tool" else findLicense l

/-- Models the subject filter: a subject entry is counted only if it is a
dict and both `code` and `term` are truthy (`if code and term:`); its key
is `f"{code}|{term}"`. -/
def subjectKey? : SubjectEntry → Option String
  | .nonDict => none
  | .dict code? term? =>
      let code := code?.getD ""
      let term := term?.getD ""
      if code ≠ "" ∧ term ≠ "" then some (code ++ "|" ++ term) else none

/-- The year bucket: `str(oa_start)` when `oa_start` is present and truthy,
otherwise `"Unknown"`. -/
def yearKey : Option JValue → String
  | none => "Unknown"
  | some v => if pyTruthy v then pyStr v else "Unknown"

/-- The counter updates performed for one qualifying record of category
`cat` (source order: license count, subjects, year, languages). -/
def accumulate (cat : String) (b : Bibjson) (t : Tables) : Tables :=
  { license := t.license ++ [cat]
    subject := t.subject ++ (b.subject.filterMap subjectKey?).map
      (fun k => (cat, k))
    year := t.year ++ [(cat, yearKey b.oa_start)]
    language := t.language ++ b.language.map (fun c => (cat, c)) }

/-- Loop state of `process_journals`: the four tables, `total_processed`,
the number of `time.sleep(RATE_LIMIT_DELAY)` calls performed, and the trace
of page numbers requested via `session.get`. -/
structure LoopState where
  tables : Tables
  total_processed : Nat
  sleeps : Nat
  pagesRequested : List Nat
  deriving DecidableEq, Repr

/-- The initial loop state. -/
def initState : LoopState :=
  { tables := Tables.empty, total_processed := 0, sleeps := 0,
    pagesRequested := [] }

/-- The body of `for journal in results:` minus the budget break: skip the
record if `not license_info`, skip it if the extracted type is the
catch-all, otherwise update all four tables and `total_processed`. -/
def processJournal (st : LoopState) (j : Journal) : LoopState :=
  let b := j.bib
  if pyFalsySeq b.license then st
  else
    let cat := extract_license_type b.license
    if cat = "UNKNOWN CC legal tool" then st
    else
      { st with tables := accumulate cat b st.tables,
                total_processed := st.total_processed + 1 }

/-- The `for journal in results:` loop: before each record the budget is
checked (`if total_processed >= args.limit: break`). -/
def processResults (limit : Nat) (st : LoopState) :
    List Journal → LoopState
  | [] => st
  | j :: rest =>
      if st.total_processed ≥ limit then st
      else processResults limit (processJournal st j) rest

/-- Models `time.sleep(RATE_LIMIT_DELAY)`. -/
def sleepIncr (st : LoopState) : LoopState :=
  { st with sleeps := st.sleeps + 1 }

/-- Records that page `n` was requested. -/
def requestPage (st : LoopState) (n : Nat) : LoopState :=
  { st with pagesRequested := st.pagesRequested ++ [n] }

/-- The `while total_processed < args.limit:` loop of `process_journals`,
fetching page `n`, `n+1`, … from the remaining page outcomes `pages` (past
the end of `pages` the API answers with an empty `results` list).  A
request failure breaks out of the loop; an empty `results` list breaks out
of the loop; otherwise the page's records are processed, `page` is
incremented, and the rate-limit sleep runs before the `while` condition is
re-tested. -/
def processPages (limit : Nat) :
    List FetchResult → Nat → LoopState → LoopState
  | [], n, st =>
      if st.total_processed ≥ limit then st
      else requestPage st n
  | p :: rest, n, st =>
      if st.total_processed ≥ limit then st
      else
        match p with
        | .failure => requestPage st n
        | .success results =>
            if results.isEmpty then requestPage st n
            else
              processPages limit rest (n + 1)
                (sleepIncr (processResults limit (requestPage st n) results))

/-- `process_journals(session, args)`: run the page loop from page 1 with
empty counters; returns the final tables, total and traces. -/
def process_journals (limit : Nat) (pages : List FetchResult) : LoopState :=
  processPages limit pages 1 initState

/-- The provenance record assembled by `query_doaj` (the fields relevant to
the core; file paths and free-text fields omitted). -/
structure Provenance where
  total_articles_fetched : Nat
  total_journals_fetched : Nat
  total_processed : Nat
  limit : Nat
  deriving DecidableEq, Repr

/-- `query_doaj(args)`: run `process_journals` and build the provenance
record from its returned total. -/
def query_doaj (limit : Nat) (pages : List FetchResult) :
    LoopState × Provenance :=
  let st := process_journals limit pages
  (st,
    { total_articles_fetched := 0
      total_journals_fetched := st.total_processed
      total_processed := st.total_processed
      limit := limit })

/-! ### Example records used by concrete witnesses and counterexamples -/

/-- A journal whose license sequence is non-empty but holds only a type
string outside `CC_LICENSE_TYPES`. -/
def jUnrecognized : Journal :=
  { bibjson := some { license := some [{ type? := some "Proprietary" }],
                      subject := [.dict (some "a") (some "A")],
                      oa_start := some (.jint 2020),
                      language := ["EN"] } }

/-- A CC BY journal with two valid subject entries and a falsy
(zero-valued) `oa_start`. -/
def jTwoSubjects : Journal :=
  { bibjson := some { license := some [{ type? := some "CC BY" }],
                      subject := [.dict (some "a") (some "A"),
                                  .dict (some "b") (some "B")],
                      oa_start := some (.jint 0),
                      language := ["EN", "ES"] } }

/-- A CC BY journal with one valid subject entry. -/
def jOneSubject : Journal :=
  { bibjson := some { license := some [{ type? := some "CC BY" }],
                      subject := [.dict (some "a") (some "A")],
                      oa_start := some (.jint 1999),
                      language := ["EN"] } }

/-- A journal with no `bibjson` at all (so its license data is absent). -/
def jNoBibjson : Journal := { bibjson := none }

/-! ### Lemmas about the classifier -/

lemma findLicense_of_no_match {l : List LicenseDescriptor}
    (h : ∀ d ∈ l, d.licType ∉ CC_LICENSE_TYPES) :
    findLicense l = "UNKNOWN CC legal tool" := by
  induction l with
  | nil => rfl
  | cons d rest ih =>
      have hd : d.licType ∉ CC_LICENSE_TYPES := h d (List.mem_cons_self d rest)
      simp only [findLicense, if_neg hd]
      exact ih fun d' hd' => h d' (List.mem_cons_of_mem d hd')

lemma findLicense_mem (l : List LicenseDescriptor) :
    findLicense l ∈ CC_LICENSE_TYPES := by
  induction l with
  | nil => decide
  | cons d rest ih =>
      simp only [findLicense]
      split
      · assumption
      · exact ih

lemma extract_license_type_mem (li : Option (List LicenseDescriptor)) :
    extract_license_type li ∈ CC_LICENSE_TYPES := by
  match li with
  | none => decide
  | some l =>
      simp only [extract_license_type]
      split
      · decide
      · exact findLicense_mem l

/-! ### Per-record lemmas about `processJournal` -/

lemma processJournal_skip_of_falsy {st : LoopState} {j : Journal}
    (h : pyFalsySeq j.bib.license = true) : processJournal st j = st := by
  simp only [processJournal, h, if_pos]

lemma processJournal_skip_of_catchall {st : LoopState} {j : Journal}
    (h : extract_license_type j.bib.license = "UNKNOWN CC legal tool") :
    processJournal st j = st := by
  simp only [processJournal]
  split
  · rfl
  · simp only [h, if_pos]

lemma processJournal_qualifying {st : LoopState} {j : Journal}
    (h1 : pyFalsySeq j.bib.license = false)
    (h2 : extract_license_type j.bib.license ≠ "UNKNOWN CC legal tool") :
    processJournal st j =
      { st with
          tables := accumulate (extract_license_type j.bib.license)
            j.bib st.tables,
          total_processed := st.total_processed + 1 } := by
  simp only [processJournal, h1, Bool.false_eq_true, if_false, if_neg h2]

lemma processJournal_cases (st : LoopState) (j : Journal) :
    processJournal st j = st ∨
      (pyFalsySeq j.bib.license = false ∧
        extract_license_type j.bib.license ≠ "UNKNOWN CC legal tool" ∧
        processJournal st j =
          { st with
              tables := accumulate (extract_license_type j.bib.license)
                j.bib st.tables,
              total_processed := st.total_processed + 1 }) := by
  by_cases h1 : pyFalsySeq j.bib.license = true
  · exact Or.inl (processJournal_skip_of_falsy h1)
  · by_cases h2 :
      extract_license_type j.bib.license = "UNKNOWN CC legal tool"
    · exact Or.inl (processJournal_skip_of_catchall h2)
    · exact Or.inr ⟨Bool.not_eq_true _ ▸ h1, h2,
        processJournal_qualifying (Bool.not_eq_true _ ▸ h1) h2⟩

/-! ### Claim C1 — records with only unrecognized license types -/

/-- C1 counterexample.  A record whose license sequence is non-empty but
contains only the unrecognized type `"Proprietary"`: the classifier does
return the catch-all category, but after a run over a page containing just
this record every one of the four counter tables is empty and the
processed total is 0 — the record is counted zero times, not once, under
the catch-all category.  This refutes the claim that such a record "is
counted exactly once under that catch-all category in all four counter
tables". -/
theorem unrecognized_license_not_counted_cex :
    extract_license_type (some [{ type? := some "Proprietary" }]) =
      "UNKNOWN CC legal tool" ∧
    (process_journals 10 [.success [jUnrecognized]]).tables = Tables.empty ∧
    (process_journals 10 [.success [jUnrecognized]]).total_processed = 0 := by
  refine ⟨rfl, ?_, rfl⟩
  decide

/-- C1 amended.  For every record whose license-info sequence is non-empty
but contains only type strings outside the recognized set, the classifier
returns the catch-all category, but the driver then skips the record
entirely (`if license_type == "UNKNOWN CC legal tool": continue`): no
counter in any of the four tables changes and the processed total is not
incremented. -/
theorem unrecognized_license_record_skipped (st : LoopState) (j : Journal)
    (l : List LicenseDescriptor) (hl : j.bib.license = some l)
    (_hne : l ≠ [])
    (hunrec : ∀ d ∈ l, d.licType ∉ CC_LICENSE_TYPES) :
    extract_license_type j.bib.license = "UNKNOWN CC legal tool" ∧
      processJournal st j = st := by
  have hext : extract_license_type j.bib.license = "UNKNOWN CC legal tool" := by
    rw [hl]
    simp only [extract_license_type]
    split
    · rfl
    · exact findLicense_of_no_match hunrec
  exact ⟨hext, processJournal_skip_of_catchall hext⟩

/-- Witness for the amended C1 at a concrete record. -/
theorem unrecognized_license_record_skipped_witness :
    extract_license_type jUnrecognized.bib.license =
      "UNKNOWN CC legal tool" ∧
      processJournal initState jUnrecognized = initState :=
  unrecognized_license_record_skipped initState jUnrecognized
    [{ type? := some "Proprietary" }] (by decide) (by decide) (by decide)

/-! ### Claim C7 — records with absent or empty license data -/

/-- C7.  For every record whose license-info sequence is absent (`None`,
including when the whole `bibjson` object is missing) or empty, processing
the record changes nothing: no counter in any of the four tables is
touched and the processed total is not incremented. -/
theorem absent_license_record_untouched (st : LoopState) (j : Journal)
    (h : j.bib.license = none ∨ j.bib.license = some []) :
    processJournal st j = st := by
  apply processJournal_skip_of_falsy
  rcases h with h | h <;> rw [h] <;> rfl

/-- Witness for C7 at a concrete record with no `bibjson` at all. -/
theorem absent_license_record_untouched_witness :
    processJournal initState jNoBibjson = initState :=
  absent_license_record_untouched initState jNoBibjson (Or.inl rfl)

/-! ### Claim C8 — the first matching descriptor wins -/

/-- C8.  For every license-info sequence that contains a descriptor whose
type is in the recognized set, the classifier returns the type of the
first such descriptor in source order: all descriptors before it are
unrecognized, and everything after it is ignored. -/
theorem first_matching_descriptor_wins (before after : List LicenseDescriptor)
    (d : LicenseDescriptor) (hd : d.licType ∈ CC_LICENSE_TYPES)
    (hbefore : ∀ d' ∈ before, d'.licType ∉ CC_LICENSE_TYPES) :
    extract_license_type (some (before ++ d :: after)) = d.licType := by
  have hne : (before ++ d :: after).isEmpty = false := by
    cases before <;> rfl
  simp only [extract_license_type, hne, Bool.false_eq_true, if_false]
  induction before with
  | nil => simp only [List.nil_append, findLicense, if_pos hd]
  | cons d' rest ih =>
      have hd' : d'.licType ∉ CC_LICENSE_TYPES :=
        hbefore d' (List.mem_cons_self d' rest)
      simp only [List.cons_append, findLicense, if_neg hd']
      exact ih (fun x hx => hbefore x (List.mem_cons_of_mem d' hx))
        (by cases rest <;> rfl)

/-- Witness for C8: an unrecognized descriptor followed by CC BY and CC0
classifies as CC BY. -/
theorem first_matching_descriptor_wins_witness :
    extract_license_type (some [{ type? := some "Proprietary" },
      { type? := some "CC BY" }, { type? := some "CC0" }]) =
      LicenseDescriptor.licType { type? := some "CC BY" } :=
  first_matching_descriptor_wins [{ type? := some "Proprietary" }]
    [{ type? := some "CC0" }] { type? := some "CC BY" }
    (by decide) (by decide)

/-! ### Claim C9 — totality of the classifier and the absent/unrecognized
collapse -/

/-- C9.  `extract_license_type` is total and always returns a member of the
fixed category list; it returns the catch-all for `None` and for an empty
sequence; and on a sequence of only unrecognized types it returns exactly
what it returns on absent input — the classifier alone cannot distinguish
absent license data from present-but-unrecognized license data (that
distinction could only be drawn by the driver's emptiness check, which runs
before the classifier is called). -/
theorem extract_license_type_total_catchall :
    (∀ li, extract_license_type li ∈ CC_LICENSE_TYPES) ∧
    extract_license_type none = "UNKNOWN CC legal tool" ∧
    extract_license_type (some []) = "UNKNOWN CC legal tool" ∧
    (∀ l, (∀ d ∈ l, d.licType ∉ CC_LICENSE_TYPES) →
      extract_license_type (some l) = extract_license_type none) := by
  refine ⟨extract_license_type_mem, rfl, rfl, fun l h => ?_⟩
  simp only [extract_license_type]
  split
  · rfl
  · exact findLicense_of_no_match h

/-- Witness for C9: on a concrete unrecognized-only sequence the classifier
agrees with its output on absent input. -/
theorem extract_license_type_total_catchall_witness :
    extract_license_type (some [{ type? := some "Proprietary" }]) =
      extract_license_type none :=
  extract_license_type_total_catchall.2.2.2
    [{ type? := some "Proprietary" }] (by decide)

/-! ### Claim C10 — falsy `oa_start` lands in the Unknown year bucket -/

/-- C10.  For every qualifying record whose `oa_start` field is present but
falsy (the integer 0 or the empty string), the year table receives one
event under the `"Unknown"` bucket for the record's category — not under a
bucket named after the field's value. -/
theorem falsy_oa_start_counts_unknown (st : LoopState) (j : Journal)
    (v : JValue) (hoa : j.bib.oa_start = some v)
    (hfalsy : pyTruthy v = false)
    (h1 : pyFalsySeq j.bib.license = false)
    (h2 : extract_license_type j.bib.license ≠ "UNKNOWN CC legal tool") :
    (processJournal st j).tables.year =
      st.tables.year ++
        [(extract_license_type j.bib.license, "Unknown")] := by
  rw [processJournal_qualifying h1 h2]
  simp only [accumulate, hoa, yearKey, hfalsy, Bool.false_eq_true, if_false]

/-- Witness for C10: a CC BY record with `oa_start = 0` is counted in the
`("CC BY", "Unknown")` year bucket. -/
theorem falsy_oa_start_counts_unknown_witness :
    (processJournal initState jTwoSubjects).tables.year =
      initState.tables.year ++
        [(extract_license_type jTwoSubjects.bib.license, "Unknown")] :=
  falsy_oa_start_counts_unknown initState jTwoSubjects (.jint 0)
    (by decide) (by decide) (by decide) (by decide)

/-! ### Loop-level lemmas -/

/-- The records carried by a page outcome (a failed request carries none). -/
def resultsOf : FetchResult → List Journal
  | .success results => results
  | .failure => []

lemma processJournal_sleeps (st : LoopState) (j : Journal) :
    (processJournal st j).sleeps = st.sleeps := by
  rcases processJournal_cases st j with h | ⟨_, _, h⟩ <;> rw [h]

lemma processJournal_pagesRequested (st : LoopState) (j : Journal) :
    (processJournal st j).pagesRequested = st.pagesRequested := by
  rcases processJournal_cases st j with h | ⟨_, _, h⟩ <;> rw [h]

lemma processResults_sleeps (limit : Nat) :
    ∀ (rs : List Journal) (st : LoopState),
      (processResults limit st rs).sleeps = st.sleeps := by
  intro rs
  induction rs with
  | nil => intro st; rfl
  | cons j rest ih =>
      intro st
      simp only [processResults]
      split
      · rfl
      · rw [ih, processJournal_sleeps]

lemma processResults_pagesRequested (limit : Nat) :
    ∀ (rs : List Journal) (st : LoopState),
      (processResults limit st rs).pagesRequested = st.pagesRequested := by
  intro rs
  induction rs with
  | nil => intro st; rfl
  | cons j rest ih =>
      intro st
      simp only [processResults]
      split
      · rfl
      · rw [ih, processJournal_pagesRequested]

/-- Any property of (tables, total) preserved per qualifying record under a
per-journal hypothesis is an invariant of the inner record loop. -/
lemma processResults_preserves (limit : Nat) (P : Tables → Nat → Prop)
    (J : Journal → Prop)
    (hstep : ∀ st j, J j → P st.tables st.total_processed →
      P (processJournal st j).tables (processJournal st j).total_processed) :
    ∀ (rs : List Journal) (st : LoopState), (∀ j ∈ rs, J j) →
      P st.tables st.total_processed →
      P (processResults limit st rs).tables
        (processResults limit st rs).total_processed := by
  intro rs
  induction rs with
  | nil => intro st _ h; exact h
  | cons j rest ih =>
      intro st hJ h
      simp only [processResults]
      split
      · exact h
      · exact ih _ (fun x hx => hJ x (List.mem_cons_of_mem j hx))
          (hstep st j (hJ j (List.mem_cons_self j rest)) h)

/-- Any property of (tables, total) preserved per qualifying record is an
invariant of the whole page loop. -/
lemma processPages_preserves (limit : Nat) (P : Tables → Nat → Prop)
    (J : Journal → Prop)
    (hstep : ∀ st j, J j → P st.tables st.total_processed →
      P (processJournal st j).tables (processJournal st j).total_processed) :
    ∀ (pages : List FetchResult) (n : Nat) (st : LoopState),
      (∀ p ∈ pages, ∀ j ∈ resultsOf p, J j) →
      P st.tables st.total_processed →
      P (processPages limit pages n st).tables
        (processPages limit pages n st).total_processed := by
  intro pages
  induction pages with
  | nil =>
      intro n st _ h
      simp only [processPages]
      split
      · exact h
      · exact h
  | cons p rest ih =>
      intro n st hJ h
      simp only [processPages]
      split
      · exact h
      · cases p with
        | failure => exact h
        | success results =>
            simp only
            split
            · exact h
            · exact ih _ _
                (fun q hq => hJ q (List.mem_cons_of_mem _ hq))
                (processResults_preserves limit P J hstep results _
                  (hJ _ (List.mem_cons_self _ rest)) h)

lemma processResults_total_le (limit : Nat) :
    ∀ (rs : List Journal) (st : LoopState),
      st.total_processed ≤ limit →
      (processResults limit st rs).total_processed ≤ limit := by
  intro rs
  induction rs with
  | nil => intro st h; exact h
  | cons j rest ih =>
      intro st h
      simp only [processResults]
      split
      · exact h
      · rename_i hlt
        apply ih
        rcases processJournal_cases st j with hc | ⟨_, _, hc⟩ <;> rw [hc]
        · exact h
        · exact Nat.succ_le_of_lt (Nat.lt_of_not_le hlt)

lemma processPages_total_le (limit : Nat) :
    ∀ (pages : List FetchResult) (n : Nat) (st : LoopState),
      st.total_processed ≤ limit →
      (processPages limit pages n st).total_processed ≤ limit := by
  intro pages
  induction pages with
  | nil =>
      intro n st h
      simp only [processPages]
      split
      · exact h
      · exact h
  | cons p rest ih =>
      intro n st h
      simp only [processPages]
      split
      · exact h
      · match p with
        | .failure => exact h
        | .success results =>
            simp only
            split
            · exact h
            · exact ih _ _ (processResults_total_le limit results _ h)

lemma countLicense_accumulate (c : String) (b : Bibjson) (t : Tables)
    (cat : String) :
    countLicense (accumulate c b t) cat =
      countLicense t cat + (if c = cat then 1 else 0) := by
  simp only [countLicense, accumulate, List.count_append,
    List.count_singleton']

lemma sumYear_accumulate (c : String) (b : Bibjson) (t : Tables)
    (cat : String) :
    sumYear (accumulate c b t) cat =
      sumYear t cat + (if c = cat then 1 else 0) := by
  simp only [sumYear, accumulate, List.filter_append, List.length_append]
  congr 1
  by_cases hc : c = cat <;> simp [hc]

lemma yearLen_accumulate (c : String) (b : Bibjson) (t : Tables) :
    (accumulate c b t).year.length = t.year.length + 1 := by
  simp [accumulate]

lemma licenseLen_accumulate (c : String) (b : Bibjson) (t : Tables) :
    (accumulate c b t).license.length = t.license.length + 1 := by
  simp [accumulate]

lemma sumSubject_accumulate (c : String) (b : Bibjson) (t : Tables)
    (cat : String) :
    sumSubject (accumulate c b t) cat =
      sumSubject t cat +
        (if c = cat then (b.subject.filterMap subjectKey?).length else 0) := by
  simp only [sumSubject, accumulate, List.filter_append, List.length_append]
  congr 1
  by_cases hc : c = cat
  · simp [hc, List.filter_map, Function.comp]
  · simp [hc, List.filter_map, Function.comp]

/-! ### Claim C5 — the record budget is never exceeded -/

/-- C5.  For every record budget and every paginated source, the number of
qualifying records processed — which is both the processed-record total the
loop returns and the total the provenance record carries — is at most the
budget. -/
theorem total_processed_le_limit (limit : Nat) (pages : List FetchResult) :
    (process_journals limit pages).total_processed ≤ limit ∧
    (query_doaj limit pages).2.total_processed ≤ limit ∧
    (process_journals limit pages).tables.license.length ≤ limit := by
  have h := processPages_total_le limit pages 1 initState (Nat.zero_le limit)
  have hlen : (process_journals limit pages).tables.license.length =
      (process_journals limit pages).total_processed := by
    refine processPages_preserves limit (fun t tot => t.license.length = tot)
      (fun _ => True) ?_ pages 1 initState (fun _ _ _ _ => trivial) rfl
    intro st j _ hP
    rcases processJournal_cases st j with hc | ⟨_, _, hc⟩ <;> rw [hc]
    · exact hP
    · simp [licenseLen_accumulate, hP]
  exact ⟨h, h, hlen ▸ h⟩

/-! ### Claim C4 — the year table never drops a qualifying record -/

/-- C4.  For every run and every license category, the sum over all year
buckets (the `"Unknown"` bucket included) equals the license-count total
for that category; moreover the total number of license-count increments
and of year-bucket increments both equal the processed-record total, so
every qualifying record lands in exactly one year bucket. -/
theorem year_sum_eq_license_count (limit : Nat) (pages : List FetchResult)
    (cat : String) :
    sumYear (process_journals limit pages).tables cat =
      countLicense (process_journals limit pages).tables cat ∧
    (process_journals limit pages).tables.license.length =
      (process_journals limit pages).total_processed ∧
    (process_journals limit pages).tables.year.length =
      (process_journals limit pages).total_processed := by
  have h := processPages_preserves limit
    (fun t tot => (∀ c, sumYear t c = countLicense t c) ∧
      t.license.length = tot ∧ t.year.length = tot)
    (fun _ => True) ?_ pages 1 initState (fun _ _ _ _ => trivial)
    ⟨fun _ => rfl, rfl, rfl⟩
  · exact ⟨h.1 cat, h.2.1, h.2.2⟩
  · intro st j _ ⟨hP, hl, hy⟩
    rcases processJournal_cases st j with hc | ⟨_, _, hc⟩ <;> rw [hc]
    · exact ⟨hP, hl, hy⟩
    · refine ⟨fun c => ?_, ?_, ?_⟩
      · rw [sumYear_accumulate, countLicense_accumulate, hP c]
      · simp [licenseLen_accumulate, hl]
      · simp [yearLen_accumulate, hy]

/-! ### Claim C2 — subject totals versus license totals -/

/-- C2 counterexample.  A single CC BY record with two valid subject
entries: the subject-table total for CC BY is 2 while the license-count
total is 1.  This refutes the claim that the subject-table sum for a
category never exceeds the license-count total — a record contributes one
subject increment per valid subject entry, not at most one. -/
theorem subject_sum_exceeds_license_count_cex :
    countLicense (process_journals 10 [.success [jTwoSubjects]]).tables
      "CC BY" = 1 ∧
    sumSubject (process_journals 10 [.success [jTwoSubjects]]).tables
      "CC BY" = 2 ∧
    ¬ (sumSubject (process_journals 10 [.success [jTwoSubjects]]).tables
        "CC BY" ≤
       countLicense (process_journals 10 [.success [jTwoSubjects]]).tables
        "CC BY") := by
  refine ⟨?_, ?_, ?_⟩ <;> decide

/-- C2 amended.  If every fetched record carries at most one valid subject
entry (a subject entry is valid when it is a dict with truthy code and
term), then for every license category the subject-table sum is at most
the license-count total.  Without that bound the inequality fails, because
each valid subject entry of a record contributes its own increment. -/
theorem subject_sum_le_license_count_single (limit : Nat)
    (pages : List FetchResult)
    (h : ∀ p ∈ pages, ∀ j ∈ resultsOf p,
      (j.bib.subject.filterMap subjectKey?).length ≤ 1)
    (cat : String) :
    sumSubject (process_journals limit pages).tables cat ≤
      countLicense (process_journals limit pages).tables cat := by
  refine processPages_preserves limit
    (fun t _ => ∀ c, sumSubject t c ≤ countLicense t c)
    (fun j => (j.bib.subject.filterMap subjectKey?).length ≤ 1)
    ?_ pages 1 initState h (fun _ => Nat.le_refl 0) cat
  intro st j hJ hP c
  rcases processJournal_cases st j with hc | ⟨_, _, hc⟩ <;> rw [hc]
  · exact hP c
  · rw [sumSubject_accumulate, countLicense_accumulate]
    split
    · exact Nat.add_le_add (hP c) hJ
    · simpa using hP c

/-- Witness for the amended C2 at a concrete one-subject record. -/
theorem subject_sum_le_license_count_single_witness :
    sumSubject (process_journals 10 [.success [jOneSubject]]).tables
      "CC BY" ≤
      countLicense (process_journals 10 [.success [jOneSubject]]).tables
      "CC BY" :=
  subject_sum_le_license_count_single 10 [.success [jOneSubject]]
    (by decide) "CC BY"

/-! ### Tracing page requests and sleeps -/

/-- The page loop requests consecutive page numbers starting from its
current one, and performs exactly one rate-limit sleep per requested page
that came back successful and non-empty. -/
lemma processPages_trace (limit : Nat) :
    ∀ (pages : List FetchResult) (n : Nat) (st : LoopState),
      ∃ k,
        (processPages limit pages n st).pagesRequested =
          st.pagesRequested ++ List.range' n k ∧
        (processPages limit pages n st).sleeps =
          st.sleeps + ((pages.take k).filter pageOk).length := by
  intro pages
  induction pages with
  | nil =>
      intro n st
      simp only [processPages]
      split
      · exact ⟨0, by simp, by simp⟩
      · exact ⟨1, by simp [requestPage], by simp [requestPage]⟩
  | cons p rest ih =>
      intro n st
      simp only [processPages]
      split
      · exact ⟨0, by simp, by simp⟩
      · cases p with
        | failure =>
            exact ⟨1, by simp [requestPage], by simp [requestPage, pageOk]⟩
        | success results =>
            simp only
            split
            · rename_i hres
              refine ⟨1, by simp [requestPage], ?_⟩
              simp [requestPage, pageOk, hres]
            · rename_i hres
              obtain ⟨k, hreq, hsl⟩ :=
                ih (n + 1)
                  (sleepIncr (processResults limit (requestPage st n) results))
              have hreq' :
                  (sleepIncr (processResults limit (requestPage st n)
                    results)).pagesRequested =
                    st.pagesRequested ++ [n] := by
                simp [sleepIncr, processResults_pagesRequested, requestPage]
              have hsl' :
                  (sleepIncr (processResults limit (requestPage st n)
                    results)).sleeps = st.sleeps + 1 := by
                simp [sleepIncr, processResults_sleeps, requestPage]
              refine ⟨k + 1, ?_, ?_⟩
              · rw [hreq, hreq', List.range'_succ, List.append_assoc]
                rfl
              · rw [hsl, hsl']
                have hok : pageOk (.success results) = true := by
                  simp [pageOk, hres]
                simp only [List.take_succ_cons, List.filter_cons, hok,
                  if_pos, List.length_cons]
                omega

/-! ### Claim C3 — when the rate-limit delay runs -/

/-- C3 counterexample.  With budget 1 and a single-page source, exactly one
page is ever fetched — the terminal page, after which the loop stops
because the budget is reached — yet one rate-limit delay is performed.  A
delay occurring "between successful page fetches only and never after the
terminal page" would require zero delays here.  The delay sits at the end
of the `while` body, after `page += 1`, so it also runs after the page
whose processing reaches the budget. -/
theorem sleep_after_terminal_budget_page_cex :
    (process_journals 1 [.success [jOneSubject]]).pagesRequested = [1] ∧
    (process_journals 1 [.success [jOneSubject]]).sleeps = 1 := by
  refine ⟨?_, ?_⟩ <;> decide

/-- C3 amended.  The rate-limit delay is performed exactly once after each
requested page that came back successful and non-empty — including the
terminal page when the loop ends by reaching the record budget — and is
never performed after a failed page request or after an empty (or
past-the-end) page: the number of sleeps equals the number of ok pages
among the requested ones. -/
theorem sleeps_eq_ok_page_count (limit : Nat) (pages : List FetchResult) :
    (process_journals limit pages).sleeps =
      ((pages.take
        (process_journals limit pages).pagesRequested.length).filter
          pageOk).length := by
  obtain ⟨k, hreq, hsl⟩ := processPages_trace limit pages 1 initState
  have hlen : (processPages limit pages 1 initState).pagesRequested.length
      = k := by
    rw [hreq]
    simp [initState, List.length_range']
  rw [process_journals, hlen, hsl]
  simp [initState]

/-! ### Claim C6 — transport failure is a soft end-of-source -/

lemma processPages_failure_absorb (limit : Nat) (rest : List FetchResult) :
    ∀ (pre : List FetchResult) (n : Nat) (st : LoopState),
      processPages limit (pre ++ .failure :: rest) n st =
        processPages limit pre n st := by
  intro pre
  induction pre with
  | nil =>
      intro n st
      simp only [List.nil_append, processPages]
  | cons p pre' ih =>
      intro n st
      simp only [List.cons_append, processPages]
      split
      · rfl
      · cases p with
        | failure => rfl
        | success results =>
            simp only
            split
            · rfl
            · exact ih _ _

/-- C6.  A failed page request ends the run exactly as exhausting the
source there would: the final state — all four counter tables, the
processed total, the sleeps performed, the pages requested — equals that
of a run over the pages before the failure alone, so everything gathered
from earlier pages is kept and nothing after the failed page is ever
fetched.  The provenance record carries that partial total, and no page
number is ever requested twice (no retry happens at this layer).  The
model returns this state normally: the failure is not surfaced as an
error. -/
theorem failure_keeps_partial_results (limit : Nat)
    (pre rest : List FetchResult) :
    process_journals limit (pre ++ .failure :: rest) =
      process_journals limit pre ∧
    (query_doaj limit (pre ++ .failure :: rest)).2.total_processed =
      (process_journals limit pre).total_processed ∧
    (process_journals limit (pre ++ .failure :: rest)).pagesRequested.Nodup
    := by
  have habs : process_journals limit (pre ++ .failure :: rest) =
      process_journals limit pre :=
    processPages_failure_absorb limit rest pre 1 initState
  refine ⟨habs, congrArg LoopState.total_processed habs, ?_⟩
  obtain ⟨k, hreq, _⟩ :=
    processPages_trace limit (pre ++ .failure :: rest) 1 initState
  rw [process_journals, hreq]
  simp [initState, List.nodup_range']
